import Mathlib

/-!
Verification of the quantization/dispatch orchestration pipeline of
`awq/entry.py`: the bit-packed mask codec (`to_encoded_array` /
`from_encoded_array`), the mask applicator (`apply_mask_to_model`), and the
mode-selection pipeline (`build_model_and_enc` / `main`).

The source is shallowly embedded: numpy arrays of booleans become lists of
`Bool` together with a shape whose product equals the element count; bytes
produced by `np.packbits` become natural numbers below 256; the in-place
tensor mutations of the mask applicator become explicit state passing; the
CLI pipeline becomes a pure function from the parsed-argument record (and an
abstract file-existence predicate) to the list of externally visible
operations it performs plus a final outcome.
-/

namespace AwqEntry

/-- One byte of `np.packbits` output: the big-endian (most significant bit
first) value of a list of bits, as `np.packbits` produces with its default
`bitorder` of big. -/
def byteOfBits (l : List Bool) : Nat :=
  l.foldl (fun a b => 2 * a + (if b then 1 else 0)) 0

/-- The 8 bits of one byte, most significant first, as `np.unpackbits`
inflates one byte. -/
def bitsOfByte (n : Nat) : List Bool :=
  (List.range 8).map (fun i => n.testBit (7 - i))

/-- Pad a chunk of at most 8 bits to exactly 8 bits with trailing zeros, as
`np.packbits` pads the final partial byte. -/
def padTo8 (l : List Bool) : List Bool :=
  l ++ List.replicate (8 - l.length) false

/-- `np.packbits` on a flat boolean array: successive chunks of 8 bits become
bytes, most significant bit first, the last (partial) chunk zero-padded. -/
def packbits : List Bool → List Nat
  | [] => []
  | a :: b :: c :: d :: e :: f :: g :: h :: rest =>
      byteOfBits [a, b, c, d, e, f, g, h] :: packbits rest
  | l => [byteOfBits (padTo8 l)]

/-- `np.unpackbits`: every byte inflates to its 8 bits, most significant
first. -/
def unpackbits (enc : List Nat) : List Bool :=
  (enc.map bitsOfByte).flatten

/-- A boolean tensor: a shape and a flat (C-contiguous) element list whose
length is the product of the shape, mirroring a numpy boolean array. -/
structure BoolTensor where
  shape : List Nat
  data : List Bool
  hlen : data.length = shape.prod

/-- The codec error of the spec: `reshape` fails when the requested shape
needs more elements than the sliced buffer provides. -/
inductive CodecError where
  | shapeMismatch
deriving DecidableEq, Repr

/-- `to_encoded_array` (entry.py lines 76-83): flatten the tensor, bit-pack
it, and return the packed buffer together with the original shape. -/
def to_encoded_array (t : BoolTensor) : List Nat × List Nat :=
  (packbits t.data, t.shape)

/-- `from_encoded_array` (entry.py lines 86-89): unpack the buffer, truncate
to `prod shape` elements (`tensor[:np.prod(shape)]`), and reshape to `shape`;
the reshape succeeds exactly when the truncated buffer has `prod shape`
elements. -/
def from_encoded_array (enc : List Nat) (shape : List Nat) : Except CodecError BoolTensor :=
  let arr := (unpackbits enc).take shape.prod
  if h : arr.length = shape.prod then .ok ⟨shape, arr, h⟩ else .error .shapeMismatch

theorem BoolTensor.eq_of_parts (a b : BoolTensor) (hs : a.shape = b.shape)
    (hd : a.data = b.data) : a = b := by
  cases a
  cases b
  cases hs
  cases hd
  rfl

theorem bitsOfByte_byteOfBits (l : List Bool) (hl : l.length = 8) :
    bitsOfByte (byteOfBits l) = l := by
  match l, hl with
  | [a, b, c, d, e, f, g, h], _ =>
    cases a <;> cases b <;> cases c <;> cases d <;> cases e <;> cases f <;>
      cases g <;> cases h <;> decide

theorem length_bitsOfByte (n : Nat) : (bitsOfByte n).length = 8 := by
  simp [bitsOfByte]

theorem length_padTo8 (l : List Bool) (h : l.length ≤ 8) :
    (padTo8 l).length = 8 := by
  simp [padTo8]
  omega

theorem unpackbits_cons (b : Nat) (rest : List Nat) :
    unpackbits (b :: rest) = bitsOfByte b ++ unpackbits rest := by
  simp [unpackbits]

theorem length_unpackbits (enc : List Nat) :
    (unpackbits enc).length = 8 * enc.length := by
  induction enc with
  | nil => simp [unpackbits]
  | cons b rest ih =>
    rw [unpackbits_cons, List.length_append, length_bitsOfByte, ih]
    simp [List.length_cons]
    omega

/-- `packbits` on a nonempty list of at most 7 bits produces one padded
byte. -/
theorem packbits_short (l : List Bool) (h1 : l ≠ []) (h2 : l.length ≤ 7) :
    packbits l = [byteOfBits (padTo8 l)] := by
  match l with
  | [] => exact absurd rfl h1
  | [a] => rfl
  | [a, b] => rfl
  | [a, b, c] => rfl
  | [a, b, c, d] => rfl
  | [a, b, c, d, e] => rfl
  | [a, b, c, d, e, f] => rfl
  | [a, b, c, d, e, f, g] => rfl
  | a :: b :: c :: d :: e :: f :: g :: h :: rest => simp at h2

/-- Unpacking one padded byte of a short (1 to 7 bits) chunk. -/
theorem unpackbits_packbits_short (l : List Bool) (h1 : l ≠ []) (h2 : l.length ≤ 7) :
    unpackbits (packbits l) = l ++ List.replicate ((8 - l.length % 8) % 8) false := by
  rw [packbits_short l h1 h2]
  have hpl : (padTo8 l).length = 8 := length_padTo8 _ (by omega)
  rw [show unpackbits [byteOfBits (padTo8 l)]
      = bitsOfByte (byteOfBits (padTo8 l)) ++ [] from rfl]
  rw [bitsOfByte_byteOfBits _ hpl, List.append_nil, padTo8]
  have hne : l.length ≠ 0 := by
    cases l
    · exact absurd rfl h1
    · simp
  have hk : (8 : Nat) - l.length = (8 - l.length % 8) % 8 := by
    omega
  rw [hk]

/-- Unpacking a packed bit list recovers the original bits followed by the
zero padding of the final partial byte. -/
theorem unpackbits_packbits (l : List Bool) :
    unpackbits (packbits l) = l ++ List.replicate ((8 - l.length % 8) % 8) false := by
  suffices hgen : ∀ (n : Nat) (l : List Bool), l.length ≤ n →
      unpackbits (packbits l) = l ++ List.replicate ((8 - l.length % 8) % 8) false from
    hgen l.length l le_rfl
  intro n
  induction n with
  | zero =>
    intro l hl
    have hnil : l = [] := List.eq_nil_of_length_eq_zero (Nat.le_zero.mp hl)
    subst hnil
    simp [packbits, unpackbits]
  | succ n ih =>
    intro l hl
    match l with
    | [] => simp [packbits, unpackbits]
    | [a] => exact unpackbits_packbits_short _ (by simp) (by simp)
    | [a, b] => exact unpackbits_packbits_short _ (by simp) (by simp)
    | [a, b, c] => exact unpackbits_packbits_short _ (by simp) (by simp)
    | [a, b, c, d] => exact unpackbits_packbits_short _ (by simp) (by simp)
    | [a, b, c, d, e] => exact unpackbits_packbits_short _ (by simp) (by simp)
    | [a, b, c, d, e, f] => exact unpackbits_packbits_short _ (by simp) (by simp)
    | [a, b, c, d, e, f, g] => exact unpackbits_packbits_short _ (by simp) (by simp)
    | a :: b :: c :: d :: e :: f :: g :: h :: rest =>
      rw [show packbits (a :: b :: c :: d :: e :: f :: g :: h :: rest)
          = byteOfBits [a, b, c, d, e, f, g, h] :: packbits rest from rfl]
      rw [unpackbits_cons, bitsOfByte_byteOfBits [a, b, c, d, e, f, g, h] (by rfl)]
      have hrec : rest.length ≤ n := by
        simp only [List.length_cons] at hl
        omega
      rw [ih rest hrec]
      have hk : (8 - rest.length % 8) % 8
          = (8 - (a :: b :: c :: d :: e :: f :: g :: h :: rest).length % 8) % 8 := by
        simp only [List.length_cons]
        omega
      rw [hk]
      simp only [List.cons_append, List.nil_append, List.append_assoc]

/-- Helper: `from_encoded_array` succeeds and returns `t` whenever the
truncated unpacked bits coincide with the data of `t`. -/
theorem from_encoded_array_ok_of (enc shape : List Nat) (t : BoolTensor)
    (hs : t.shape = shape) (hd : (unpackbits enc).take shape.prod = t.data) :
    from_encoded_array enc shape = .ok t := by
  simp only [from_encoded_array]
  split
  · rename_i h
    exact congrArg Except.ok (BoolTensor.eq_of_parts _ _ hs.symm hd)
  · rename_i h
    exact absurd (by rw [hd, t.hlen, hs]) h

/-- C1. Round-trip law of the mask codec: for every boolean tensor `t` of any
shape (including element counts that are not multiples of 8),
`from_encoded_array` applied to the pair returned by `to_encoded_array`
yields `t` back exactly. -/
theorem pack_unpack_roundtrip (t : BoolTensor) :
    from_encoded_array (to_encoded_array t).1 (to_encoded_array t).2 = .ok t := by
  apply from_encoded_array_ok_of
  · rfl
  · rw [to_encoded_array, unpackbits_packbits, ← t.hlen, List.take_left]

/-- C9. `from_encoded_array` fails with `ShapeMismatchError` exactly when the
requested shape needs more elements than the unpacked buffer provides (the
buffer provides 8 bits per byte); otherwise it succeeds, truncating the
unpacked bits to `prod shape` elements and reshaping to `shape`. -/
theorem from_encoded_array_spec (enc : List Nat) (shape : List Nat) :
    (unpackbits enc).length = 8 * enc.length
    ∧ (shape.prod > (unpackbits enc).length →
        from_encoded_array enc shape = .error .shapeMismatch)
    ∧ (shape.prod ≤ (unpackbits enc).length →
        ∃ t : BoolTensor, from_encoded_array enc shape = .ok t
          ∧ t.shape = shape ∧ t.data = (unpackbits enc).take shape.prod) := by
  refine ⟨length_unpackbits enc, ?_, ?_⟩
  · intro hgt
    simp only [from_encoded_array]
    split
    · rename_i h
      exfalso
      rw [List.length_take] at h
      omega
    · rfl
  · intro hle
    have heq : ((unpackbits enc).take shape.prod).length = shape.prod := by
      rw [List.length_take]
      omega
    exact ⟨⟨shape, (unpackbits enc).take shape.prod, heq⟩,
      from_encoded_array_ok_of _ _ _ rfl rfl, rfl, rfl⟩

/-- Witness for C9 at a concrete buffer: one byte `0b10101010`, the shape
`[3, 3]` (9 elements, more than the 8 available bits) fails, while `[4, 2]`
(8 elements) succeeds with the truncated unpacked bits. -/
theorem from_encoded_array_spec_witness :
    (([3, 3] : List Nat).prod > (unpackbits [170]).length
      ∧ from_encoded_array [170] [3, 3] = .error .shapeMismatch)
    ∧ (([4, 2] : List Nat).prod ≤ (unpackbits [170]).length
      ∧ ∃ t : BoolTensor, from_encoded_array [170] [4, 2] = .ok t
          ∧ t.shape = [4, 2] ∧ t.data = (unpackbits [170]).take ([4, 2] : List Nat).prod) :=
  ⟨⟨by decide, (from_encoded_array_spec [170] [3, 3]).2.1 (by decide)⟩,
   ⟨by decide, (from_encoded_array_spec [170] [4, 2]).2.2 (by decide)⟩⟩

/-! ### Mask applicator (`apply_mask_to_model`, entry.py lines 92-105) -/

/-- A numeric parameter tensor of the model: shape plus flat element list,
mirroring one entry of `model.named_parameters()`. -/
structure IntTensor where
  shape : List Nat
  data : List Int
  hlen : data.length = shape.prod

/-- A persisted encoded mask: the packed-bits buffer plus the original shape
list, one value of the mask dictionary. -/
abbrev EncodedMask := List Nat × List Nat

/-- Failures of the mask applicator, following the error taxonomy of the
spec: a decode failure of the codec, a boolean-index failure when the decoded
mask's shape disagrees with the parameter's, and the final-consumption
failure (`assert len(keys) == 0`, entry.py line 104) carrying the keys that
matched no parameter. -/
inductive MaskError where
  | shapeMismatchError
  | indexShapeMismatch
  | unconsumedMaskError (remaining : List String)
deriving DecidableEq, Repr

/-- `param.data[mask] = 0` (entry.py line 103): set every element of the
parameter where the mask is true to zero, in place; boolean-mask indexing
requires the mask's shape to agree with the parameter's. -/
def maskParam (p : IntTensor) (m : BoolTensor) : Except MaskError IntTensor :=
  if h : m.shape = p.shape then
    .ok ⟨p.shape, List.zipWith (fun x b => if b then 0 else x) p.data m.data, by
      rw [List.length_zipWith, p.hlen, m.hlen, h, Nat.min_self]⟩
  else .error .indexShapeMismatch

/-- The loop of `apply_mask_to_model` (entry.py lines 97-103): walk the named
parameters in order; for every name present in the mask dictionary, decode
the mask, remove the name from the working key list, and zero the masked
elements. Returns the parameter list after the full pass together with the
keys that remained unconsumed. -/
def maskLoop : List (String × IntTensor) → List (String × EncodedMask) → List String →
    Except MaskError (List (String × IntTensor) × List String)
  | [], _, keys => .ok ([], keys)
  | (name, p) :: rest, dict, keys =>
    match dict.lookup name with
    | none =>
      match maskLoop rest dict keys with
      | .error e => .error e
      | .ok (m, k) => .ok ((name, p) :: m, k)
    | some em =>
      match from_encoded_array em.1 em.2 with
      | .error _ => .error .shapeMismatchError
      | .ok mask =>
        match maskParam p mask with
        | .error e => .error e
        | .ok p2 =>
          match maskLoop rest dict (keys.erase name) with
          | .error e => .error e
          | .ok (m, k) => .ok ((name, p2) :: m, k)

/-- `apply_mask_to_model` (entry.py lines 92-105): run the loop starting from
the full key list of the dictionary (`keys = list(mask_dict.keys())`), then
assert that every key was consumed; loading of the persisted dictionary is
externalized, so the dictionary itself is the argument. -/
def apply_mask_to_model (model : List (String × IntTensor))
    (dict : List (String × EncodedMask)) :
    Except MaskError (List (String × IntTensor)) :=
  match maskLoop model dict (dict.map Prod.fst) with
  | .error e => .error e
  | .ok (m, []) => .ok m
  | .ok (_, k) => .error (.unconsumedMaskError k)

/-- Specification-side description of one parameter after mask application:
unchanged when the dictionary has no entry for it, otherwise with exactly the
elements under a true mask bit zeroed. -/
def appliedParam (p : IntTensor) (e : Option EncodedMask) : IntTensor :=
  match e with
  | none => p
  | some em =>
    match from_encoded_array em.1 em.2 with
    | .error _ => p
    | .ok mask =>
      match maskParam p mask with
      | .error _ => p
      | .ok p2 => p2

/-- Specification-side description of the whole model after mask
application: every parameter replaced pointwise by `appliedParam`. -/
def expectedMasked (model : List (String × IntTensor))
    (dict : List (String × EncodedMask)) : List (String × IntTensor) :=
  model.map (fun np => (np.1, appliedParam np.2 (dict.lookup np.1)))

/-- Well-formedness of a mask dictionary for a model: every entry that names
a parameter decodes successfully to a mask of that parameter's shape. -/
def decodesOkFor (p : IntTensor) (e : Option EncodedMask) : Bool :=
  match e with
  | none => true
  | some em =>
    match from_encoded_array em.1 em.2 with
    | .error _ => false
    | .ok mask => mask.shape == p.shape

/-- A dictionary is compatible with a model when every matching entry decodes
to a mask of the parameter's shape. -/
def dictCompatible (model : List (String × IntTensor))
    (dict : List (String × EncodedMask)) : Bool :=
  model.all (fun np => decodesOkFor np.2 (dict.lookup np.1))

/-- The key list left after the loop: every parameter name that has a
dictionary entry is erased from the working key list. -/
def consumeKeys (model : List (String × IntTensor)) (dict : List (String × EncodedMask))
    (keys : List String) : List String :=
  model.foldl (fun ks np => if (dict.lookup np.1).isSome then ks.erase np.1 else ks) keys

theorem maskLoop_eq (dict : List (String × EncodedMask)) :
    ∀ (model : List (String × IntTensor)) (keys : List String),
      dictCompatible model dict = true →
      maskLoop model dict keys = .ok (expectedMasked model dict, consumeKeys model dict keys) := by
  intro model
  induction model with
  | nil =>
    intro keys hc
    simp [maskLoop, expectedMasked, consumeKeys]
  | cons np rest ih =>
    intro keys hc
    obtain ⟨name, p⟩ := np
    simp only [dictCompatible, List.all_cons, Bool.and_eq_true] at hc
    obtain ⟨h1, h2⟩ := hc
    cases hdl : dict.lookup name with
    | none =>
      simp only [maskLoop, hdl, ih keys h2]
      simp [expectedMasked, appliedParam, consumeKeys, hdl]
    | some em =>
      rw [hdl] at h1
      cases hfe : from_encoded_array em.1 em.2 with
      | error e =>
        exfalso
        simp [decodesOkFor, hfe] at h1
      | ok mask =>
        simp only [decodesOkFor, hfe, beq_iff_eq] at h1
        have hmp : maskParam p mask
            = .ok ⟨p.shape, List.zipWith (fun x b => if b then 0 else x) p.data mask.data,
                by rw [List.length_zipWith, p.hlen, mask.hlen, h1, Nat.min_self]⟩ := by
          simp [maskParam, h1]
        simp only [maskLoop, hdl, hfe, hmp, ih (keys.erase name) h2]
        simp [expectedMasked, appliedParam, consumeKeys, hdl, hfe, hmp]

theorem consumeKeys_eq_nil (dict : List (String × EncodedMask)) :
    ∀ (model : List (String × IntTensor)) (keys : List String),
      keys.Nodup →
      (∀ k ∈ keys, k ∈ model.map Prod.fst) →
      (∀ k ∈ keys, (dict.lookup k).isSome = true) →
      consumeKeys model dict keys = [] := by
  intro model
  induction model with
  | nil =>
    intro keys _ hsub _
    simp only [List.map_nil] at hsub
    exact List.eq_nil_iff_forall_not_mem.mpr (fun k hk => (List.not_mem_nil k) (hsub k hk))
  | cons np rest ih =>
    intro keys hnd hsub hdict
    obtain ⟨name, p⟩ := np
    rw [consumeKeys, List.foldl_cons]
    refine ih _ ?_ ?_ ?_
    · split
      · exact hnd.erase name
      · exact hnd
    · intro k hk
      have hkeys : k ∈ keys := by
        revert hk
        split
        · exact fun hk => List.mem_of_mem_erase hk
        · exact fun hk => hk
      have hin := hsub k hkeys
      simp only [List.map_cons, List.mem_cons] at hin
      rcases hin with heq | hin
      · exfalso
        revert hk
        have hlk := hdict k hkeys
        rw [heq] at hlk
        simp only [hlk, if_pos]
        rw [heq]
        intro hk
        exact (hnd.mem_erase_iff.mp hk).1 rfl
      · exact hin
    · intro k hk
      have hkeys : k ∈ keys := by
        revert hk
        split
        · exact fun hk => List.mem_of_mem_erase hk
        · exact fun hk => hk
      exact hdict k hkeys

theorem mem_consumeKeys (dict : List (String × EncodedMask)) (k : String) :
    ∀ (model : List (String × IntTensor)) (keys : List String),
      k ∈ keys → k ∉ model.map Prod.fst →
      k ∈ consumeKeys model dict keys := by
  intro model
  induction model with
  | nil =>
    intro keys hk _
    exact hk
  | cons np rest ih =>
    intro keys hk hnm
    obtain ⟨name, p⟩ := np
    simp only [List.map_cons, List.mem_cons, not_or] at hnm
    obtain ⟨hne, hnm2⟩ := hnm
    rw [consumeKeys, List.foldl_cons]
    refine ih _ ?_ hnm2
    split
    · exact (List.mem_erase_of_ne hne).mpr hk
    · exact hk

theorem lookup_isSome_iff (dict : List (String × EncodedMask)) (k : String) :
    (dict.lookup k).isSome = true ↔ k ∈ dict.map Prod.fst := by
  induction dict with
  | nil => simp [List.lookup]
  | cons e rest ih =>
    obtain ⟨a, b⟩ := e
    by_cases h : k = a
    · subst h
      simp [List.lookup_cons]
    · rw [List.lookup_cons]
      have hba : (k == a) = false := beq_false_of_ne h
      simp [hba, ih, h]

/-- C2. For every model and every compatible mask dictionary whose key set is
exactly the model's parameter-name set, `apply_mask_to_model` succeeds and
replaces every parameter by the version in which precisely the elements under
a true decoded-mask bit are zero and all other elements are numerically
unchanged (`expectedMasked` / `appliedParam`); the conjunct about
`appliedParam` spells out the elementwise behavior. -/
theorem apply_mask_to_model_exact (model : List (String × IntTensor))
    (dict : List (String × EncodedMask))
    (hnd : (dict.map Prod.fst).Nodup)
    (hsub : ∀ k ∈ dict.map Prod.fst, k ∈ model.map Prod.fst)
    (hsup : ∀ k ∈ model.map Prod.fst, k ∈ dict.map Prod.fst)
    (hc : dictCompatible model dict = true) :
    apply_mask_to_model model dict = .ok (expectedMasked model dict)
    ∧ ∀ (p : IntTensor) (em : EncodedMask) (mask : BoolTensor),
        from_encoded_array em.1 em.2 = .ok mask → mask.shape = p.shape →
        ∀ (i : Nat) (b : Bool) (x : Int), mask.data[i]? = some b → p.data[i]? = some x →
          (appliedParam p (some em)).data[i]? = some (if b then 0 else x) := by
  constructor
  · have hloop := maskLoop_eq dict model (dict.map Prod.fst) hc
    have hnil : consumeKeys model dict (dict.map Prod.fst) = [] := by
      refine consumeKeys_eq_nil dict model _ hnd ?_ ?_
      · intro k hk
        exact hsub k hk
      · intro k hk
        exact (lookup_isSome_iff dict k).mpr hk
    rw [apply_mask_to_model, hloop, hnil]
  · intro p em mask hfe hs i b x hb hx
    have hmp : maskParam p mask
        = .ok ⟨p.shape, List.zipWith (fun y c => if c then 0 else y) p.data mask.data,
            by rw [List.length_zipWith, p.hlen, mask.hlen, hs, Nat.min_self]⟩ := by
      simp [maskParam, hs]
    simp only [appliedParam, hfe, hmp]
    obtain ⟨hib, hbv⟩ := List.getElem?_eq_some_iff.mp hb
    obtain ⟨hix, hxv⟩ := List.getElem?_eq_some_iff.mp hx
    have hiz : i < (List.zipWith (fun y c => if c then 0 else y) p.data mask.data).length := by
      rw [List.length_zipWith]
      omega
    rw [List.getElem?_eq_getElem hiz, List.getElem_zipWith, hbv, hxv]

/-- Witness for C2: a one-parameter model with data `[1, 2, 3, 4]` of shape
`[2, 2]` and a mask that is true exactly at the first and last slot; applying
the dictionary zeroes exactly those two elements. -/
theorem apply_mask_to_model_exact_witness :
    (([("w", (packbits [true, false, false, true], [2, 2]))].map
        (Prod.fst (α := String) (β := EncodedMask))).Nodup
    ∧ dictCompatible [("w", ⟨[2, 2], [1, 2, 3, 4], by decide⟩)]
        [("w", (packbits [true, false, false, true], [2, 2]))] = true)
    ∧ apply_mask_to_model [("w", ⟨[2, 2], [1, 2, 3, 4], by decide⟩)]
        [("w", (packbits [true, false, false, true], [2, 2]))]
      = .ok (expectedMasked [("w", ⟨[2, 2], [1, 2, 3, 4], by decide⟩)]
          [("w", (packbits [true, false, false, true], [2, 2]))]) :=
  ⟨⟨by decide, by decide⟩,
    (apply_mask_to_model_exact [("w", ⟨[2, 2], [1, 2, 3, 4], by decide⟩)]
      [("w", (packbits [true, false, false, true], [2, 2]))]
      (by decide) (by decide) (by decide) (by decide)).1⟩

/-- C3. For every model and compatible mask dictionary containing at least
one key that names no parameter, `apply_mask_to_model` fails with
`UnconsumedMaskError`, and the failure is detected only at the final
consumption check after the full pass: the loop itself completes
successfully, having applied the masks of every matching key
(`expectedMasked`), before the assert fires. -/
theorem apply_mask_unconsumed (model : List (String × IntTensor))
    (dict : List (String × EncodedMask))
    (hbad : ∃ k ∈ dict.map Prod.fst, k ∉ model.map Prod.fst)
    (hc : dictCompatible model dict = true) :
    ∃ rem : List String, rem ≠ []
      ∧ maskLoop model dict (dict.map Prod.fst) = .ok (expectedMasked model dict, rem)
      ∧ apply_mask_to_model model dict = .error (.unconsumedMaskError rem) := by
  obtain ⟨k, hk, hnm⟩ := hbad
  have hloop := maskLoop_eq dict model (dict.map Prod.fst) hc
  have hmem : k ∈ consumeKeys model dict (dict.map Prod.fst) :=
    mem_consumeKeys dict k model _ hk hnm
  refine ⟨consumeKeys model dict (dict.map Prod.fst), ?_, hloop, ?_⟩
  · intro hnil
    rw [hnil] at hmem
    exact (List.not_mem_nil k) hmem
  · rw [apply_mask_to_model, hloop]
    cases hck : consumeKeys model dict (dict.map Prod.fst) with
    | nil =>
      exfalso
      rw [hck] at hmem
      exact (List.not_mem_nil k) hmem
    | cons a l => rfl

/-- Witness for C3: the same one-parameter model, with a dictionary holding a
correct mask for `w` plus a stale key `gone`; the loop completes with the
mask applied, and the final check fails with the stale key left over. -/
theorem apply_mask_unconsumed_witness :
    ((∃ k ∈ ([("w", (packbits [true, false, false, true], [2, 2])),
              ("gone", (packbits [true], [1]))].map
        (Prod.fst (α := String) (β := EncodedMask))),
        k ∉ ([("w", ⟨[2, 2], [1, 2, 3, 4], by decide⟩)].map
          (Prod.fst (α := String) (β := IntTensor))))
    ∧ dictCompatible [("w", ⟨[2, 2], [1, 2, 3, 4], by decide⟩)]
        [("w", (packbits [true, false, false, true], [2, 2])),
         ("gone", (packbits [true], [1]))] = true)
    ∧ ∃ rem : List String, rem ≠ []
      ∧ maskLoop [("w", ⟨[2, 2], [1, 2, 3, 4], by decide⟩)]
          [("w", (packbits [true, false, false, true], [2, 2])),
           ("gone", (packbits [true], [1]))]
          ([("w", (packbits [true, false, false, true], [2, 2])),
            ("gone", (packbits [true], [1]))].map Prod.fst)
        = .ok (expectedMasked [("w", ⟨[2, 2], [1, 2, 3, 4], by decide⟩)]
            [("w", (packbits [true, false, false, true], [2, 2])),
             ("gone", (packbits [true], [1]))], rem)
      ∧ apply_mask_to_model [("w", ⟨[2, 2], [1, 2, 3, 4], by decide⟩)]
          [("w", (packbits [true, false, false, true], [2, 2])),
           ("gone", (packbits [true], [1]))]
        = .error (.unconsumedMaskError rem) :=
  ⟨⟨by decide, by decide⟩,
    apply_mask_unconsumed [("w", ⟨[2, 2], [1, 2, 3, 4], by decide⟩)]
      [("w", (packbits [true, false, false, true], [2, 2])),
       ("gone", (packbits [true], [1]))]
      (by decide) (by decide)⟩

/-! ### Pipeline (`build_model_and_enc`, entry.py lines 110-234, and `main`,
lines 237-269) -/

/-- The two quantization backends admitted by the argument parser
(`choices` restricts `--q_backend` to `fake` and `real`, entry.py
lines 40-41), so the `NotImplementedError` arm at line 214 is
unreachable. -/
inductive QBackend where
  | fake
  | real
deriving DecidableEq, Repr

/-- The parsed command-line arguments relevant to the orchestration
pipeline, in declaration order: `load_quant`, `run_awq`, `dump_awq`,
`load_awq`, `apply_sparse_mask`, `w_bit`, `q_backend`, `dump_quant`,
`output_folder`, `output_path`, `tasks`, `auto_dispatch`. -/
structure Args where
  load_quant : Option String
  run_awq : Bool
  dump_awq : Option String
  load_awq : Option String
  apply_sparse_mask : Option String
  w_bit : Option Nat
  q_backend : QBackend
  dump_quant : Option String
  output_folder : Option String
  output_path : Option String
  tasks : Option String
  auto_dispatch : Bool
deriving DecidableEq, Repr

/-- Python truthiness of an optional string argument: `None` and the empty
string are falsy, every other string is truthy. -/
def truthy : Option String → Bool
  | none => false
  | some s => !(s == "")

@[simp] theorem truthy_none : truthy none = false := rfl

@[simp] theorem truthy_some (s : String) : truthy (some s) = !(s == "") := rfl

theorem isSome_of_truthy (o : Option String) (h : truthy o = true) :
    o.isSome = true := by
  cases o
  · simp [truthy] at h
  · rfl

/-- The externally visible operations of one pipeline run, in source
order. -/
inductive Event where
  | initQuantizedLayout
  | loadCheckpoint
  | simpleDispatch
  | loadFP16Model
  | applyMask
  | runAwqSearch
  | saveAwqResults
  | loadAwqResults
  | applyAwq
  | pseudoQuantize
  | saveSparsityReport
  | realQuantize
  | saveQuantDump
  | dispatch
  | evaluate
  | saveEvalResults
deriving DecidableEq, Repr

/-- How `build_model_and_enc` ends: a normal return of `(model, enc)`, a
process exit with status 0, or an assert failure — the `PreconditionError`
of the spec's error taxonomy, carrying the assert's message. -/
inductive BuildResult where
  | returned
  | exited0
  | failed (msg : String)
deriving DecidableEq, Repr

/-- The assert message at entry.py line 164. -/
def dumpAwqMissingMsg : String := "Please save the awq results with --dump_awq"

/-- The assert message at entry.py lines 188-189. -/
def fakeDumpMsg : String := "Need to use real quantization to dump quantized weights"

/-- The tail of the fresh-load path (entry.py lines 216-232): return without
placement when auto-dispatch is disabled, otherwise dispatch the model and
return. -/
def dispatchTail (args : Args) (ev : List Event) : List Event × BuildResult :=
  if args.auto_dispatch then (ev ++ [.dispatch], .returned) else (ev, .returned)

/-- `build_model_and_enc` (entry.py lines 110-234) as a pure function from
the arguments to the trace of externally visible operations plus the way the
call ends. Tokenizer/model construction and file input/output stay with
external collaborators; the branch structure (including Python truthiness
versus `is None` tests, and the `run_awq &= not load_awq` adjustment at
line 152) is translated one-to-one. -/
def build_model_and_enc (args : Args) : List Event × BuildResult :=
  if truthy args.load_quant then
    ([.initQuantizedLayout, .loadCheckpoint, .simpleDispatch], .returned)
  else
    let ev1 := [Event.loadFP16Model]
      ++ (if args.apply_sparse_mask.isSome then [Event.applyMask] else [])
    if args.run_awq && !truthy args.load_awq then
      if truthy args.dump_awq then
        (ev1 ++ [.runAwqSearch, .saveAwqResults], .exited0)
      else
        (ev1, .failed dumpAwqMissingMsg)
    else
      let ev2 := ev1
        ++ (if truthy args.load_awq then [Event.loadAwqResults, Event.applyAwq] else [])
      match args.w_bit with
      | none => dispatchTail args ev2
      | some _ =>
        match args.q_backend with
        | .fake =>
          if args.dump_quant.isSome then
            (ev2, .failed fakeDumpMsg)
          else
            dispatchTail args (ev2 ++ [Event.pseudoQuantize]
              ++ (if args.output_folder.isSome then [Event.saveSparsityReport] else []))
        | .real =>
          let ev3 := ev2 ++ [Event.realQuantize]
          if truthy args.dump_quant then
            (ev3 ++ [.saveQuantDump], .exited0)
          else
            dispatchTail args ev3

/-- Outcome of the whole process: a normal return of `main`, a successful
process exit (`exit()` / `exit(0)`), or an assert failure
(`PreconditionError`). -/
inductive Outcome where
  | completed
  | exitSuccess
  | error (msg : String)
deriving DecidableEq, Repr

/-- The idempotent short-circuit of `main` (entry.py lines 243-245): a
truthy search-results path that names an existing file. -/
def awqSkip (args : Args) (fs : String → Bool) : Bool :=
  match args.dump_awq with
  | none => false
  | some p => !(p == "") && fs p

/-- `main` (entry.py lines 237-269): the `output_path` pre-existence check
only prints (the former exit is commented out), an existing search-results
file exits with success before any other work, then the model is built and,
when tasks were requested, evaluated, optionally persisting the results. -/
def main (args : Args) (fs : String → Bool) : List Event × Outcome :=
  if awqSkip args fs then ([], .exitSuccess)
  else
    match build_model_and_enc args with
    | (tr, .failed msg) => (tr, .error msg)
    | (tr, .exited0) => (tr, .exitSuccess)
    | (tr, .returned) =>
      if args.tasks.isSome then
        (tr ++ [Event.evaluate]
          ++ (if args.output_path.isSome then [Event.saveEvalResults] else []),
          .completed)
      else (tr, .completed)

/-- Operations that read or mutate weight tensors: mask application, the
scale search, applying precomputed scales, both quantizations, and streaming
a checkpoint into placed storage. Model construction and device placement
are not counted. -/
def touchesWeights : Event → Bool
  | .applyMask => true
  | .runAwqSearch => true
  | .applyAwq => true
  | .pseudoQuantize => true
  | .realQuantize => true
  | .loadCheckpoint => true
  | _ => false

/-- Arguments requesting both the scale search (with an output path) and a
real-quantization dump with a bit-width. -/
def argsSearchAndRealDump : Args :=
  ⟨none, true, some "awq-results.pt", none, none, some 4, .real, some "quant.pt",
    none, none, none, true⟩

/-- Counterexample to C4 as stated: when the search request and a
real-quantization dump with bit-width are both present and a search-output
path is supplied, no `PreconditionError` is raised at all — the run performs
the search (which reads weight tensors) and exits 0, never reaching the
dump. -/
theorem search_plus_real_dump_counterexample :
    ¬ (∀ a : Args, a.run_awq = true → a.w_bit.isSome = true → a.q_backend = .real →
        a.dump_quant.isSome = true →
        (∃ msg, (build_model_and_enc a).2 = .failed msg)
        ∧ ∀ e ∈ (build_model_and_enc a).1, touchesWeights e = false) := by
  intro hclaim
  obtain ⟨⟨msg, hmsg⟩, -⟩ := hclaim argsSearchAndRealDump rfl rfl rfl rfl
  have hval : (build_model_and_enc argsSearchAndRealDump).2 = .exited0 := by decide
  rw [hval] at hmsg
  exact BuildResult.noConfusion hmsg

/-- C4 (amended). When both the scale search and a real-quantization dump
with a bit-width are requested and no prequantized-load path, no
precomputed-scales path, and no sparse mask are supplied, then if no
search-output path is given the run raises `PreconditionError` (the
`--dump_awq` assert) before any weight tensor is read or mutated. (With a
search-output path the run instead performs the search and exits 0 before
ever reaching the real dump — see the counterexample.) -/
theorem search_plus_real_dump_precondition (a : Args)
    (h1 : a.run_awq = true) (h2 : a.w_bit.isSome = true) (h3 : a.q_backend = .real)
    (h4 : a.dump_quant.isSome = true) (h5 : truthy a.load_quant = false)
    (h6 : a.load_awq = none) (h7 : a.dump_awq = none) (h8 : a.apply_sparse_mask = none) :
    (build_model_and_enc a).2 = .failed dumpAwqMissingMsg
    ∧ ∀ e ∈ (build_model_and_enc a).1, touchesWeights e = false := by
  obtain ⟨lq, ra, da, la, asm, wb, qb, dq, ofo, op, tk, ad⟩ := a
  simp only at h1 h5 h6 h7 h8
  subst h1 h6 h7 h8
  simp [build_model_and_enc, h5, touchesWeights]

/-- Witness for the amended C4 at concrete arguments. -/
theorem search_plus_real_dump_precondition_witness :
    ((⟨none, true, none, none, none, some 4, .real, some "quant.pt",
        none, none, none, true⟩ : Args).run_awq = true
      ∧ (⟨none, true, none, none, none, some 4, .real, some "quant.pt",
        none, none, none, true⟩ : Args).w_bit.isSome = true
      ∧ (⟨none, true, none, none, none, some 4, .real, some "quant.pt",
        none, none, none, true⟩ : Args).q_backend = .real
      ∧ (⟨none, true, none, none, none, some 4, .real, some "quant.pt",
        none, none, none, true⟩ : Args).dump_quant.isSome = true)
    ∧ ((build_model_and_enc ⟨none, true, none, none, none, some 4, .real,
          some "quant.pt", none, none, none, true⟩).2 = .failed dumpAwqMissingMsg
      ∧ ∀ e ∈ (build_model_and_enc ⟨none, true, none, none, none, some 4, .real,
          some "quant.pt", none, none, none, true⟩).1, touchesWeights e = false) :=
  ⟨⟨rfl, rfl, rfl, rfl⟩,
    search_plus_real_dump_precondition
      ⟨none, true, none, none, none, some 4, .real, some "quant.pt",
        none, none, none, true⟩ rfl rfl rfl rfl rfl rfl rfl rfl⟩

/-- Arguments with a prequantized-load path together with the fake backend,
a bit-width, and a dump path. -/
def argsLoadQuantFakeDump : Args :=
  ⟨some "quantized.pt", false, none, none, none, some 4, .fake, some "dump.pt",
    none, none, none, true⟩

/-- Counterexample to C5 as stated: with a prequantized-load path supplied,
the load-quantized branch preempts every quantization check, so the
fake-plus-dump combination returns normally instead of raising
`PreconditionError`. -/
theorem fake_dump_counterexample :
    ¬ (∀ a : Args, a.w_bit.isSome = true → a.q_backend = .fake →
        a.dump_quant.isSome = true →
        ∃ msg, (build_model_and_enc a).2 = .failed msg) := by
  intro hclaim
  obtain ⟨msg, hmsg⟩ := hclaim argsLoadQuantFakeDump rfl rfl rfl
  have hval : (build_model_and_enc argsLoadQuantFakeDump).2 = .returned := by decide
  rw [hval] at hmsg
  exact BuildResult.noConfusion hmsg

/-- C5 (amended). With a bit-width set, the fake backend selected, and a
quantized-weights dump path supplied, the run raises `PreconditionError`,
provided no prequantized-load path is given and the run does not take the
search-save-and-exit path (the effective search request is off, or no
search-output path is given — in the latter case the error raised is the
`--dump_awq` assert, also a `PreconditionError`). -/
theorem fake_dump_precondition (a : Args)
    (h1 : a.w_bit.isSome = true) (h2 : a.q_backend = .fake)
    (h3 : a.dump_quant.isSome = true) (h4 : truthy a.load_quant = false)
    (h5 : (a.run_awq && !truthy a.load_awq) = false ∨ truthy a.dump_awq = false) :
    ∃ msg, (build_model_and_enc a).2 = .failed msg := by
  obtain ⟨lq, ra, da, la, asm, wb, qb, dq, ofo, op, tk, ad⟩ := a
  simp only at h1 h2 h3 h4 h5
  subst h2
  cases wb with
  | none => simp at h1
  | some n =>
    cases hre : ra && !truthy la with
    | true =>
      rcases h5 with h5 | h5
      · rw [hre] at h5
        exact Bool.noConfusion h5
      · exact ⟨dumpAwqMissingMsg, by simp [build_model_and_enc, h4, hre, h5]⟩
    | false =>
      exact ⟨fakeDumpMsg, by simp [build_model_and_enc, h4, hre, h3]⟩

/-- Witness for the amended C5 at concrete arguments. -/
theorem fake_dump_precondition_witness :
    ((⟨none, false, none, none, none, some 4, .fake, some "dump.pt",
        none, none, none, true⟩ : Args).w_bit.isSome = true
      ∧ (⟨none, false, none, none, none, some 4, .fake, some "dump.pt",
        none, none, none, true⟩ : Args).q_backend = .fake
      ∧ (⟨none, false, none, none, none, some 4, .fake, some "dump.pt",
        none, none, none, true⟩ : Args).dump_quant.isSome = true
      ∧ truthy (⟨none, false, none, none, none, some 4, .fake, some "dump.pt",
        none, none, none, true⟩ : Args).load_quant = false)
    ∧ ∃ msg, (build_model_and_enc ⟨none, false, none, none, none, some 4, .fake,
        some "dump.pt", none, none, none, true⟩).2 = .failed msg :=
  ⟨⟨rfl, rfl, rfl, rfl⟩,
    fake_dump_precondition
      ⟨none, false, none, none, none, some 4, .fake, some "dump.pt",
        none, none, none, true⟩ rfl rfl rfl rfl (Or.inl rfl)⟩

/-- Arguments with a prequantized-load path and an active search request
without an output path. -/
def argsLoadQuantSearch : Args :=
  ⟨some "quantized.pt", true, none, none, none, none, .fake, none,
    none, none, none, true⟩

/-- Counterexample to C6 as stated: with a prequantized-load path supplied,
the load-quantized branch returns normally; the active search request with a
missing output path raises nothing (and the search is also never invoked,
but the claimed precondition failure does not happen). -/
theorem search_no_output_counterexample :
    ¬ (∀ a : Args, a.run_awq = true → truthy a.load_awq = false →
        truthy a.dump_awq = false →
        (∃ msg, (build_model_and_enc a).2 = .failed msg)
        ∧ Event.runAwqSearch ∉ (build_model_and_enc a).1) := by
  intro hclaim
  obtain ⟨⟨msg, hmsg⟩, -⟩ := hclaim argsLoadQuantSearch rfl rfl rfl
  have hval : (build_model_and_enc argsLoadQuantSearch).2 = .returned := by decide
  rw [hval] at hmsg
  exact BuildResult.noConfusion hmsg

/-- C6 (amended). When the scale-search request is active (not disabled by a
precomputed-scales path), no search-output path is supplied, and no
prequantized-load path is given, the run fails with `PreconditionError` (the
`--dump_awq` assert) before invoking the search operation. -/
theorem search_no_output_precondition (a : Args)
    (h1 : a.run_awq = true) (h2 : truthy a.load_awq = false)
    (h3 : truthy a.dump_awq = false) (h4 : truthy a.load_quant = false) :
    (build_model_and_enc a).2 = .failed dumpAwqMissingMsg
    ∧ Event.runAwqSearch ∉ (build_model_and_enc a).1 := by
  obtain ⟨lq, ra, da, la, asm, wb, qb, dq, ofo, op, tk, ad⟩ := a
  simp only at h1 h2 h3 h4
  subst h1
  cases hasm : asm.isSome <;>
    simp [build_model_and_enc, h2, h3, h4, hasm]

/-- Witness for the amended C6 at concrete arguments. -/
theorem search_no_output_precondition_witness :
    ((⟨none, true, none, none, none, none, .fake, none,
        none, none, none, true⟩ : Args).run_awq = true
      ∧ truthy (⟨none, true, none, none, none, none, .fake, none,
        none, none, none, true⟩ : Args).load_awq = false
      ∧ truthy (⟨none, true, none, none, none, none, .fake, none,
        none, none, none, true⟩ : Args).dump_awq = false
      ∧ truthy (⟨none, true, none, none, none, none, .fake, none,
        none, none, none, true⟩ : Args).load_quant = false)
    ∧ ((build_model_and_enc ⟨none, true, none, none, none, none, .fake, none,
          none, none, none, true⟩).2 = .failed dumpAwqMissingMsg
      ∧ Event.runAwqSearch ∉ (build_model_and_enc ⟨none, true, none, none, none,
          none, .fake, none, none, none, none, true⟩).1) :=
  ⟨⟨rfl, rfl, rfl, rfl⟩,
    search_no_output_precondition
      ⟨none, true, none, none, none, none, .fake, none,
        none, none, none, true⟩ rfl rfl rfl rfl⟩

/-- C7. With a (truthy) search-results path configured and a file already
existing at that path, the whole run exits with success status before doing
any other work (the trace is empty), and in particular the search operation
is never invoked. -/
theorem existing_awq_results_skip (a : Args) (fs : String → Bool) (p : String)
    (h1 : a.dump_awq = some p) (h2 : (p == "") = false) (h3 : fs p = true) :
    main a fs = ([], .exitSuccess)
    ∧ Event.runAwqSearch ∉ (main a fs).1 := by
  have hskip : awqSkip a fs = true := by
    simp [awqSkip, h1, h2, h3]
  constructor
  · simp [main, hskip]
  · simp [main, hskip]

/-- Witness for C7 at concrete arguments and a filesystem on which the
search-results file exists. -/
theorem existing_awq_results_skip_witness :
    ((⟨none, true, some "awq-results.pt", none, none, none, .fake, none,
        none, none, some "wikitext", true⟩ : Args).dump_awq = some "awq-results.pt"
      ∧ (("awq-results.pt" == "") = false)
      ∧ (fun _ => true) "awq-results.pt" = true)
    ∧ (main ⟨none, true, some "awq-results.pt", none, none, none, .fake, none,
          none, none, some "wikitext", true⟩ (fun _ => true) = ([], .exitSuccess)
      ∧ Event.runAwqSearch ∉ (main ⟨none, true, some "awq-results.pt", none, none,
          none, .fake, none, none, none, some "wikitext", true⟩ (fun _ => true)).1) :=
  ⟨⟨rfl, by decide, rfl⟩,
    existing_awq_results_skip
      ⟨none, true, some "awq-results.pt", none, none, none, .fake, none,
        none, none, some "wikitext", true⟩ (fun _ => true) "awq-results.pt"
      rfl (by decide) rfl⟩

/-- Case analysis of `build_model_and_enc`: saving search results or a
quantized dump happens only on an exit-0 path with no dispatch, every exit-0
ending saves one of the two, and the build itself never evaluates. -/
theorem build_cases (a : Args) :
    (Event.saveAwqResults ∈ (build_model_and_enc a).1 →
      (build_model_and_enc a).2 = .exited0
      ∧ Event.dispatch ∉ (build_model_and_enc a).1
      ∧ Event.evaluate ∉ (build_model_and_enc a).1)
    ∧ (Event.saveQuantDump ∈ (build_model_and_enc a).1 →
      (build_model_and_enc a).2 = .exited0
      ∧ Event.dispatch ∉ (build_model_and_enc a).1
      ∧ Event.evaluate ∉ (build_model_and_enc a).1)
    ∧ ((build_model_and_enc a).2 = .exited0 →
        Event.saveAwqResults ∈ (build_model_and_enc a).1
        ∨ Event.saveQuantDump ∈ (build_model_and_enc a).1)
    ∧ Event.evaluate ∉ (build_model_and_enc a).1 := by
  obtain ⟨lq, ra, da, la, asm, wb, qb, dq, ofo, op, tk, ad⟩ := a
  cases hlq : truthy lq with
  | true => simp [build_model_and_enc, hlq]
  | false =>
    cases hre : ra && !truthy la with
    | true =>
      have hra : ra = true := by
        cases ra
        · simp at hre
        · rfl
      have hla2 : truthy la = false := by
        cases hx : truthy la
        · rfl
        · rw [hx] at hre
          simp at hre
      subst hra
      cases hda : truthy da <;> cases hasm : asm.isSome <;>
        simp [build_model_and_enc, hlq, hla2, hda, hasm]
    | false =>
      simp only [build_model_and_enc, hlq, hre]
      cases wb with
      | none =>
        cases hla : truthy la <;> cases hasm : asm.isSome <;> cases ad <;>
          simp [dispatchTail, hla, hasm]
      | some n =>
        cases qb with
        | fake =>
          cases hsd : dq.isSome with
          | true =>
            cases hla : truthy la <;> cases hasm : asm.isSome <;>
              simp [hla, hasm, hsd]
          | false =>
            cases hla : truthy la <;> cases hasm : asm.isSome <;>
              cases hofo : ofo.isSome <;> cases ad <;>
              simp [dispatchTail, hla, hasm, hsd, hofo]
        | real =>
          cases htd : truthy dq with
          | true =>
            cases hla : truthy la <;> cases hasm : asm.isSome <;>
              simp [hla, hasm, htd]
          | false =>
            cases hla : truthy la <;> cases hasm : asm.isSome <;> cases ad <;>
              simp [dispatchTail, hla, hasm, htd]

/-- Arguments whose run fails a precondition (search requested without an
output path), so the run neither saves anything nor returns control. -/
def argsSearchNoOutput : Args :=
  ⟨none, true, none, none, none, none, .fake, none, none, none, none, true⟩

/-- Counterexample to C8 as stated: a run that performs neither of the two
terminal saves may still fail a precondition instead of returning control to
allow evaluation. -/
theorem terminal_exits_counterexample :
    ¬ (∀ (a : Args) (fs : String → Bool),
        Event.saveAwqResults ∉ (main a fs).1 →
        Event.saveQuantDump ∉ (main a fs).1 →
        (main a fs).2 = .completed) := by
  intro hclaim
  have h := hclaim argsSearchNoOutput (fun _ => false) (by decide) (by decide)
  have hval : (main argsSearchNoOutput (fun _ => false)).2 = .error dumpAwqMissingMsg := by
    decide
  rw [hval] at h
  exact Outcome.noConfusion h

/-- C8 (amended). The process terminates with success status immediately
after saving search results and immediately after saving a real-quantized
dump, and on those two paths no device dispatch and no evaluation ever runs;
conversely every success-status exit is one of those two saves or the
pre-existing-search-results skip; and every path that returns control
(completes) runs the evaluation exactly when tasks were requested — paths
that fail a precondition do neither. -/
theorem terminal_exits (a : Args) (fs : String → Bool) :
    (Event.saveAwqResults ∈ (main a fs).1 →
      (main a fs).2 = .exitSuccess
      ∧ Event.dispatch ∉ (main a fs).1 ∧ Event.evaluate ∉ (main a fs).1)
    ∧ (Event.saveQuantDump ∈ (main a fs).1 →
      (main a fs).2 = .exitSuccess
      ∧ Event.dispatch ∉ (main a fs).1 ∧ Event.evaluate ∉ (main a fs).1)
    ∧ ((main a fs).2 = .exitSuccess →
        Event.saveAwqResults ∈ (main a fs).1 ∨ Event.saveQuantDump ∈ (main a fs).1
        ∨ awqSkip a fs = true)
    ∧ ((main a fs).2 = .completed →
        (Event.evaluate ∈ (main a fs).1 ↔ a.tasks.isSome = true)) := by
  cases hskip : awqSkip a fs with
  | true => simp [main, hskip]
  | false =>
    obtain ⟨hA, hB, hC, hEv⟩ := build_cases a
    cases hbe : build_model_and_enc a with
    | mk tr res =>
      rw [hbe] at hA hB hC hEv
      simp only at hA hB hC hEv
      have hnA : Event.saveAwqResults ∉ tr ∨ res = .exited0 := by
        by_cases h : Event.saveAwqResults ∈ tr
        · exact Or.inr (hA h).1
        · exact Or.inl h
      have hnB : Event.saveQuantDump ∉ tr ∨ res = .exited0 := by
        by_cases h : Event.saveQuantDump ∈ tr
        · exact Or.inr (hB h).1
        · exact Or.inl h
      cases res with
      | failed msg =>
        have hA2 : Event.saveAwqResults ∉ tr := by
          rcases hnA with h | h
          · exact h
          · exact absurd h (by simp)
        have hB2 : Event.saveQuantDump ∉ tr := by
          rcases hnB with h | h
          · exact h
          · exact absurd h (by simp)
        simp [main, hskip, hbe, hA2, hB2]
      | exited0 =>
        simp only [main, hskip, hbe]
        refine ⟨?_, ?_, ?_, ?_⟩
        · intro h
          exact ⟨rfl, (hA h).2.1, (hA h).2.2⟩
        · intro h
          exact ⟨rfl, (hB h).2.1, (hB h).2.2⟩
        · intro _
          rcases hC rfl with h | h
          · exact Or.inl h
          · exact Or.inr (Or.inl h)
        · intro h
          exact absurd h (by simp)
      | returned =>
        have hA2 : Event.saveAwqResults ∉ tr := by
          rcases hnA with h | h
          · exact h
          · exact absurd h (by simp)
        have hB2 : Event.saveQuantDump ∉ tr := by
          rcases hnB with h | h
          · exact h
          · exact absurd h (by simp)
        cases htk : a.tasks.isSome with
        | false => simp [main, hskip, hbe, htk, hA2, hB2, hEv]
        | true =>
          cases hop : a.output_path.isSome with
          | false => simp [main, hskip, hbe, htk, hop, hA2, hB2, hEv]
          | true => simp [main, hskip, hbe, htk, hop, hA2, hB2, hEv]

/-- Witness for the amended C8: on the search-save path the run exits with
success and neither dispatches nor evaluates. -/
theorem terminal_exits_witness :
    Event.saveAwqResults ∈ (main ⟨none, true, some "awq-results.pt", none, none,
        none, .fake, none, none, none, some "wikitext", true⟩ (fun _ => false)).1
    ∧ ((main ⟨none, true, some "awq-results.pt", none, none, none, .fake, none,
          none, none, some "wikitext", true⟩ (fun _ => false)).2 = .exitSuccess
      ∧ Event.dispatch ∉ (main ⟨none, true, some "awq-results.pt", none, none,
          none, .fake, none, none, none, some "wikitext", true⟩ (fun _ => false)).1
      ∧ Event.evaluate ∉ (main ⟨none, true, some "awq-results.pt", none, none,
          none, .fake, none, none, none, some "wikitext", true⟩ (fun _ => false)).1) :=
  ⟨by decide,
    (terminal_exits ⟨none, true, some "awq-results.pt", none, none, none, .fake,
      none, none, none, some "wikitext", true⟩ (fun _ => false)).1 (by decide)⟩

/-- Arguments combining an active search request with a precomputed-scales
path and additionally a real-quantization dump. -/
def argsSearchWithLoadAwqRealDump : Args :=
  ⟨none, true, none, some "awq-results.pt", none, some 4, .real, some "quant.pt",
    none, none, some "wikitext", true⟩

/-- Counterexample to C10 as stated: with a precomputed-scales path and the
search request both supplied, the search is indeed silently disabled and the
scales are applied, but the pipeline does not always continue on to
evaluation — with a real-quantization dump also requested it exits
immediately after saving the dump. -/
theorem search_silently_disabled_counterexample :
    ¬ (∀ (a : Args) (fs : String → Bool),
        truthy a.load_quant = false → a.run_awq = true → truthy a.load_awq = true →
        Event.runAwqSearch ∉ (main a fs).1
        ∧ Event.loadAwqResults ∈ (main a fs).1
        ∧ Event.applyAwq ∈ (main a fs).1
        ∧ (main a fs).2 = .completed) := by
  intro hclaim
  have h := hclaim argsSearchWithLoadAwqRealDump (fun _ => false) rfl rfl (by decide)
  have hval : (main argsSearchWithLoadAwqRealDump (fun _ => false)).2 = .exitSuccess := by
    decide
  rw [hval] at h
  exact Outcome.noConfusion h.2.2.2

/-- C10 (amended). Without a prequantized-load path, when both the
scale-search request and a precomputed-scales path are supplied — and no
quantized-weights dump path is given and no pre-existing search-results file
triggers the idempotent skip — the search request is silently disabled
rather than raising an error or exiting: the search is never invoked, the
precomputed scales are loaded and applied, and the pipeline continues,
quantizing when a bit-width is set, dispatching when auto-dispatch is on,
and evaluating exactly when tasks were requested. -/
theorem search_silently_disabled (a : Args) (fs : String → Bool)
    (h1 : truthy a.load_quant = false) (h2 : a.run_awq = true)
    (h3 : truthy a.load_awq = true) (h4 : a.dump_quant = none)
    (h5 : awqSkip a fs = false) :
    Event.runAwqSearch ∉ (main a fs).1
    ∧ Event.loadAwqResults ∈ (main a fs).1
    ∧ Event.applyAwq ∈ (main a fs).1
    ∧ (main a fs).2 = .completed
    ∧ (Event.dispatch ∈ (main a fs).1 ↔ a.auto_dispatch = true)
    ∧ (Event.evaluate ∈ (main a fs).1 ↔ a.tasks.isSome = true)
    ∧ (a.w_bit.isSome = true →
        Event.pseudoQuantize ∈ (main a fs).1 ∨ Event.realQuantize ∈ (main a fs).1) := by
  obtain ⟨lq, ra, da, la, asm, wb, qb, dq, ofo, op, tk, ad⟩ := a
  simp only at h1 h2 h3 h4 h5
  subst h2 h4
  cases hasm : asm.isSome <;> cases wb <;> cases qb <;> cases hofo : ofo.isSome <;>
    cases ad <;> cases htk : tk.isSome <;> cases hop : op.isSome <;>
    simp_all [main, build_model_and_enc, dispatchTail]

/-- Witness for the amended C10 at concrete arguments. -/
theorem search_silently_disabled_witness :
    (truthy (⟨none, true, none, some "awq-results.pt", none, some 4, .fake, none,
        none, none, some "wikitext", true⟩ : Args).load_quant = false
      ∧ (⟨none, true, none, some "awq-results.pt", none, some 4, .fake, none,
        none, none, some "wikitext", true⟩ : Args).run_awq = true
      ∧ truthy (⟨none, true, none, some "awq-results.pt", none, some 4, .fake, none,
        none, none, some "wikitext", true⟩ : Args).load_awq = true
      ∧ (⟨none, true, none, some "awq-results.pt", none, some 4, .fake, none,
        none, none, some "wikitext", true⟩ : Args).dump_quant = none)
    ∧ (Event.runAwqSearch ∉ (main ⟨none, true, none, some "awq-results.pt", none,
          some 4, .fake, none, none, none, some "wikitext", true⟩ (fun _ => false)).1
      ∧ Event.loadAwqResults ∈ (main ⟨none, true, none, some "awq-results.pt", none,
          some 4, .fake, none, none, none, some "wikitext", true⟩ (fun _ => false)).1
      ∧ Event.applyAwq ∈ (main ⟨none, true, none, some "awq-results.pt", none,
          some 4, .fake, none, none, none, some "wikitext", true⟩ (fun _ => false)).1
      ∧ (main ⟨none, true, none, some "awq-results.pt", none, some 4, .fake, none,
          none, none, some "wikitext", true⟩ (fun _ => false)).2 = .completed
      ∧ (Event.dispatch ∈ (main ⟨none, true, none, some "awq-results.pt", none,
          some 4, .fake, none, none, none, some "wikitext", true⟩ (fun _ => false)).1
        ↔ (⟨none, true, none, some "awq-results.pt", none, some 4, .fake, none,
          none, none, some "wikitext", true⟩ : Args).auto_dispatch = true)
      ∧ (Event.evaluate ∈ (main ⟨none, true, none, some "awq-results.pt", none,
          some 4, .fake, none, none, none, some "wikitext", true⟩ (fun _ => false)).1
        ↔ (⟨none, true, none, some "awq-results.pt", none, some 4, .fake, none,
          none, none, some "wikitext", true⟩ : Args).tasks.isSome = true)
      ∧ ((⟨none, true, none, some "awq-results.pt", none, some 4, .fake, none,
          none, none, some "wikitext", true⟩ : Args).w_bit.isSome = true →
        Event.pseudoQuantize ∈ (main ⟨none, true, none, some "awq-results.pt", none,
          some 4, .fake, none, none, none, some "wikitext", true⟩ (fun _ => false)).1
        ∨ Event.realQuantize ∈ (main ⟨none, true, none, some "awq-results.pt", none,
          some 4, .fake, none, none, none, some "wikitext", true⟩ (fun _ => false)).1)) :=
  ⟨⟨rfl, rfl, by decide, rfl⟩,
    search_silently_disabled
      ⟨none, true, none, some "awq-results.pt", none, some 4, .fake, none,
        none, none, some "wikitext", true⟩ (fun _ => false)
      rfl rfl (by decide) rfl (by decide)⟩

end AwqEntry
